import Mathlib

/-!
Verification of the SkyPath-RL propagation / Q-learning core.

Shallow embedding conventions:
* Python floats are modelled as real numbers (`ℝ`); `math.isnan` / `math.isinf`
  guards are consequently always false and are dropped, with a comment at each
  site.  `None` never flows into the numeric paths that are modelled, so
  `is None` guards are dropped as well.
* 3-D points `(x, y, z)` are modelled as `ℝ × ℝ × ℝ`.
* Python `dict`s are modelled as association lists (first key occurrence wins;
  the sources never create duplicate keys).
* Ambient module state (`cf.drones`, `cf.CENTERS`, `cf.BASE_RADIUS`,
  `cf.LAYERS`, `cf.scale`) is passed explicitly as parameters.
-/

open Classical

/-- A 3-D position `(x, y, z)`. -/
abbrev P3 : Type := ℝ × ℝ × ℝ

/-! ## elements/distance.py -/

/-- The `calculate_distance` (elements/distance.py): Euclidean distance between two
3-D points.  (The Python function also accepts 2-D points, padding `z = 0`;
every call site modelled here passes 3-D points.) -/
noncomputable def calculate_distance (point1 point2 : P3) : ℝ :=
  Real.sqrt ((point2.1 - point1.1) ^ 2 + (point2.2.1 - point1.2.1) ^ 2 +
    (point2.2.2 - point1.2.2) ^ 2)

/-! ## elements/loss.py -/

/-- The `free_space_path_loss` (elements/loss.py).  Inputs `≤ 0` are floored to
`1.0` m and `2400.0` MHz; the NaN/Inf fallback (`70.0`) is unreachable over
`ℝ` and is dropped. -/
noncomputable def free_space_path_loss (distance_m freq_mhz : ℝ) : ℝ :=
  let d := if distance_m ≤ 0 then 1.0 else distance_m
  let f := if freq_mhz ≤ 0 then 2400.0 else freq_mhz
  20 * Real.logb 10 d + 20 * Real.logb 10 f - 27.56

/-- One obstruction record handed to `rl_multi_hill_diffraction`: the two 2-D
segment endpoints and the hill height. -/
structure Hill where
  seg1 : ℝ × ℝ
  seg2 : ℝ × ℝ
  height : ℝ

/-- The intrusion `h = hill_height - los_height` computed inside the hill loop
of `rl_multi_hill_diffraction` (elements/loss.py): line-of-sight height is
interpolated at the midpoint of the hill segment. -/
noncomputable def hillIntrusion (tx rx : P3) (hill : Hill) : ℝ :=
  let total_dist := calculate_distance tx rx
  let total_dist := if total_dist ≤ 0 then 1.0 else total_dist
  let mid_x := (hill.seg1.1 + hill.seg2.1) / 2
  let mid_y := (hill.seg1.2 + hill.seg2.2) / 2
  let dist_to_mid := Real.sqrt ((mid_x - tx.1) ^ 2 + (mid_y - tx.2.1) ^ 2)
  let t := if dist_to_mid ≤ 0 then 0.5 else max 0 (min (dist_to_mid / total_dist) 1.0)
  let los_height := tx.2.2 + t * (rx.2.2 - tx.2.2)
  hill.height - los_height

/-- The per-hill contribution accumulated by `rl_multi_hill_diffraction`:
`0` below the line of sight, otherwise the smooth knife-edge term. -/
noncomputable def hillLossTerm (tx rx : P3) (freq_hz : ℝ) (hill : Hill) : ℝ :=
  let f := if freq_hz ≤ 0 then 2.4e9 else freq_hz
  let total_dist := calculate_distance tx rx
  let total_dist := if total_dist ≤ 0 then 1.0 else total_dist
  let wavelength := 3e8 / f
  let h := hillIntrusion tx rx hill
  if h ≤ 0 then 0
  else
    let hill_width := Real.sqrt ((hill.seg1.1 - hill.seg2.1) ^ 2 + (hill.seg1.2 - hill.seg2.2) ^ 2)
    let hill_width := if hill_width ≤ 0 then 1.0 else hill_width
    let width_factor := Real.log (1 + hill_width)
    let fresnel := Real.sqrt |wavelength * total_dist / 2|
    let fresnel := if fresnel ≤ 0 then 1e-6 else fresnel
    let norm_h := h / (fresnel + 1e-6)
    20 * Real.logb 10 (1 + norm_h * width_factor)

/-- The `rl_multi_hill_diffraction` (elements/loss.py): total knife-edge
diffraction loss, summed over all obstructions.  The empty-list guard returns
`0`; per-hill NaN/Inf guards are unreachable over `ℝ`. -/
noncomputable def rl_multi_hill_diffraction (tx rx : P3) (hills : List Hill) (freq_hz : ℝ) : ℝ :=
  if hills = [] then 0
  else (hills.map (hillLossTerm tx rx freq_hz)).sum

/-! ## configFiles/terrain_moderator.py -/

/-- The record returned by `calculate_segment_loss`. -/
structure LossResult where
  distance : ℝ
  fspl : ℝ
  diffraction : ℝ
  total : ℝ

/-- The `calculate_segment_loss` (configFiles/terrain_moderator.py): free-space
plus diffraction loss of one segment.  Distance is replaced by `1.0` only when
it is `≤ 0`; `total` is replaced by `80.0` only when negative (NaN/Inf guards
are unreachable over `ℝ`, and the generic exception fallback is dead code). -/
noncomputable def calculate_segment_loss (pos_from pos_to : P3) (hills_data : List Hill)
    (freq_hz : ℝ) : LossResult :=
  let distance := calculate_distance pos_from pos_to
  let distance := if distance ≤ 0 then 1.0 else distance
  let fspl := free_space_path_loss distance (freq_hz / 1e6)
  let diffraction := rl_multi_hill_diffraction pos_from pos_to hills_data freq_hz
  let total := fspl + diffraction
  let total := if total < 0 then 80.0 else total
  ⟨distance, fspl, diffraction, total⟩

/-- The record returned by `calculate_multihop_relay_loss`. -/
structure RelayResult where
  segment_losses : List LossResult
  total_loss : ℝ
  num_hops : ℕ
  relay_path : List P3

/-- The `calculate_multihop_relay_loss` (configFiles/terrain_moderator.py):
builds `[tx] + drone_positions + [rx]` and sums `calculate_segment_loss` over
consecutive pairs.  The `total_loss` fallback (`100.0`) fires only when the
sum is negative (NaN/Inf guards unreachable over `ℝ`). -/
noncomputable def calculate_multihop_relay_loss (tx_pos : P3) (drone_positions : List P3)
    (rx_pos : P3) (hills_data : List Hill) (freq_hz : ℝ) : RelayResult :=
  let relay_path := [tx_pos] ++ drone_positions ++ [rx_pos]
  let segment_losses :=
    (relay_path.zip relay_path.tail).map fun pq =>
      calculate_segment_loss pq.1 pq.2 hills_data freq_hz
  let total_loss := (segment_losses.map LossResult.total).sum
  let total_loss := if total_loss < 0 then 100.0 else total_loss
  ⟨segment_losses, total_loss, relay_path.length - 1, relay_path⟩

/-- The record returned by `get_drone_signal_metrics`. -/
structure SignalMetrics where
  rx_power_dbm_direct : ℝ
  rx_power_dbm_relay : ℝ
  tx_distance_direct : ℝ
  tx_distance_relay : ℝ
  relay_total_loss : ℝ
  relay_info : RelayResult

/-- The `get_drone_signal_metrics` (configFiles/terrain_moderator.py).  The
parameter `drones` models the module-global fleet list `cf.drones` that the
function reads; note that the source never uses its `drone_pos` argument in
the relay computation — it calls `calculate_multihop_relay_loss` on the whole
fleet.  NaN/Inf sanitisation is unreachable over `ℝ`. -/
noncomputable def get_drone_signal_metrics (tx_power_dbm : ℝ) (tx_pos rx_pos : P3)
    (drone_pos : P3) (drones : List P3) (hills_data : List Hill) (freq_hz : ℝ)
    (direct_path_loss : ℝ) : SignalMetrics :=
  let relay_info := calculate_multihop_relay_loss tx_pos drones rx_pos hills_data freq_hz
  let relay_total_loss := relay_info.total_loss
  let rx_power_direct := tx_power_dbm - direct_path_loss
  let rx_power_relay := tx_power_dbm - relay_total_loss
  let tx_rx_direct_dist := calculate_distance tx_pos rx_pos
  let tx_rx_direct_dist := if tx_rx_direct_dist ≤ 0 then 1.0 else tx_rx_direct_dist
  let tx_relay_total_dist := (relay_info.segment_losses.map LossResult.distance).sum
  let tx_relay_total_dist := if tx_relay_total_dist ≤ 0 then 1.0 else tx_relay_total_dist
  ⟨rx_power_direct, rx_power_relay, tx_rx_direct_dist, tx_relay_total_dist,
    relay_total_loss, relay_info⟩

/-! ## elements/rl_agent.py — data model -/

/-- A discretized state `(grid_x, grid_y, grid_z)`. -/
abbrev QState : Type := ℤ × ℤ × ℤ

/-- One state's action-value dict, `action id → Q-value`, as an assoc list. -/
abbrev ActMap : Type := List (ℤ × ℝ)

/-- The Q-table, `state → action dict`, as an assoc list. -/
abbrev QTable : Type := List (QState × ActMap)

/-- Assoc-list lookup (Python `dict` access / `in` test). -/
def lookupA {α β : Type} [DecidableEq α] (l : List (α × β)) (k : α) : Option β :=
  match l with
  | [] => none
  | e :: rest => if e.1 = k then some e.2 else lookupA rest k

/-- Assoc-list update `d[k] = v` (replace if present, else append — Python
dict assignment semantics). -/
def upsert {α β : Type} [DecidableEq α] (l : List (α × β)) (k : α) (v : β) : List (α × β) :=
  match l with
  | [] => [(k, v)]
  | e :: rest => if e.1 = k then (k, v) :: rest else e :: upsert rest k v

/-- The `{i: 0.0 for i in range(10)}` — the lazily created all-zeros action dict. -/
def zeroActs : ActMap := (List.range 10).map fun i => ((i : ℤ), (0 : ℝ))

/-- The `self.actions` (rl_agent.py lines 40-51): 8 compass unit vectors plus
climb and descend. -/
def actionsList : List (ℤ × ℤ × ℤ) :=
  [(0, -1, 0), (1, -1, 0), (1, 0, 0), (1, 1, 0), (0, 1, 0),
   (-1, 1, 0), (-1, 0, 0), (-1, -1, 0), (0, 0, 1), (0, 0, -1)]

/-- The `self.actions[action_idx]` for a valid action id. -/
def actionVec (action_idx : Fin 10) : ℤ × ℤ × ℤ :=
  actionsList.getD action_idx.val (0, 0, 0)

/-- The `DroneRLAgent` object state (rl_agent.py `__init__`). -/
structure DroneRLAgent where
  grid_size : ℤ
  height_levels : ℤ
  learning_rate : ℝ
  discount_factor : ℝ
  epsilon : ℝ
  epsilon_min : ℝ
  epsilon_decay : ℝ
  q_table : QTable
  step_count : ℤ
  episode_count : ℤ
  learning_history : List ℝ

/-- The `DroneRLAgent.__init__`: a fresh agent (empty defaultdict Q-table,
`epsilon = epsilon_start`, zero counters). -/
def mkDroneRLAgent (grid_size height_levels : ℤ) (learning_rate discount_factor
    epsilon_start epsilon_min epsilon_decay : ℝ) : DroneRLAgent :=
  ⟨grid_size, height_levels, learning_rate, discount_factor, epsilon_start,
    epsilon_min, epsilon_decay, [], 0, 0, []⟩

/-- Python `int()` truncation toward zero on a real value. -/
noncomputable def pyInt (v : ℝ) : ℤ := if 0 ≤ v then ⌊v⌋ else ⌈v⌉

namespace DroneRLAgent

/-- The `discretize_position` (rl_agent.py): linear map of the position onto grid
indices, truncated with `int()` and clamped into range. -/
noncomputable def discretize_position (ag : DroneRLAgent) (pos_3d : P3)
    (bounds : ℝ × ℝ × ℝ × ℝ) (height_bounds : ℝ × ℝ) : QState :=
  let x := pos_3d.1
  let y := pos_3d.2.1
  let z := pos_3d.2.2
  let min_x := bounds.1
  let max_x := bounds.2.1
  let min_y := bounds.2.2.1
  let max_y := bounds.2.2.2
  let min_z := height_bounds.1
  let max_z := height_bounds.2
  let grid_x := pyInt ((x - min_x) / (max_x - min_x) * ((ag.grid_size : ℝ) - 1))
  let grid_y := pyInt ((y - min_y) / (max_y - min_y) * ((ag.grid_size : ℝ) - 1))
  let grid_z := pyInt ((z - min_z) / (max_z - min_z) * ((ag.height_levels : ℝ) - 1))
  let grid_x := max 0 (min grid_x (ag.grid_size - 1))
  let grid_y := max 0 (min grid_y (ag.grid_size - 1))
  let grid_z := max 0 (min grid_z (ag.height_levels - 1))
  (grid_x, grid_y, grid_z)

/-- The `continuous_from_grid` (rl_agent.py): grid indices back to continuous
coordinates. -/
noncomputable def continuous_from_grid (ag : DroneRLAgent) (grid_pos : QState)
    (bounds : ℝ × ℝ × ℝ × ℝ) (height_bounds : ℝ × ℝ) : P3 :=
  let min_x := bounds.1
  let max_x := bounds.2.1
  let min_y := bounds.2.2.1
  let max_y := bounds.2.2.2
  let min_z := height_bounds.1
  let max_z := height_bounds.2
  let x := min_x + ((grid_pos.1 : ℝ) / ((ag.grid_size : ℝ) - 1)) * (max_x - min_x)
  let y := min_y + ((grid_pos.2.1 : ℝ) / ((ag.grid_size : ℝ) - 1)) * (max_y - min_y)
  let z := min_z + ((grid_pos.2.2 : ℝ) / ((ag.height_levels : ℝ) - 1)) * (max_z - min_z)
  (x, y, z)

/-- The lazy initialisation `if state not in q_table: q_table[state] = zeros`
performed by `select_action` and `update_q_table`. -/
noncomputable def ensureState (t : QTable) (s : QState) : QTable :=
  if lookupA t s = none then t ++ [(s, zeroActs)] else t

/-- The `select_action` (rl_agent.py): epsilon-greedy choice.  The two numpy
random draws are passed in explicitly: `randFloat` models
`np.random.random()`, `randInt` models `np.random.randint(0, 10)` and `pick`
models `np.random.choice` over the list of maximisers.  Returns the chosen
action id together with the (possibly lazily extended) Q-table. -/
noncomputable def select_action (ag : DroneRLAgent) (state : QState) (training : Bool)
    (randFloat : ℝ) (randInt : ℤ) (pick : List ℤ → ℤ) : ℤ × QTable :=
  let t := ensureState ag.q_table state
  if training = true ∧ randFloat < ag.epsilon then (randInt, t)
  else
    match lookupA t state with
    | none => (randInt, t)
    | some q_values =>
      match q_values.map Prod.snd with
      | [] => (randInt, t)
      | v :: vs =>
        let max_q := vs.foldl max v
        let best_actions := (q_values.filter fun kv => kv.2 = max_q).map Prod.fst
        (pick best_actions, t)

/-- The `apply_action` (rl_agent.py lines 132-185): move, clamp to bounds, then
the terrain rule — scan the hills (`cf.CENTERS` / `cf.BASE_RADIUS` /
`cf.LAYERS`, passed explicitly) and revert the horizontal component at the
first hill whose footprint contains the clamped destination while the
resulting altitude is at most the hill height.  The clamped coordinates are
split out as `destX`/`destY`/`destZ` so that theorems can name them. -/
noncomputable def destX (position : P3) (action_idx : Fin 10) (bounds : ℝ × ℝ × ℝ × ℝ)
    (step_size : ℝ) : ℝ :=
  max bounds.1 (min (position.1 + ((actionVec action_idx).1 : ℝ) * step_size) bounds.2.1)

/-- Clamped destination `y` of `apply_action`. -/
noncomputable def destY (position : P3) (action_idx : Fin 10) (bounds : ℝ × ℝ × ℝ × ℝ)
    (step_size : ℝ) : ℝ :=
  max bounds.2.2.1
    (min (position.2.1 + ((actionVec action_idx).2.1 : ℝ) * step_size) bounds.2.2.2)

/-- Clamped destination `z` of `apply_action`. -/
noncomputable def destZ (position : P3) (action_idx : Fin 10) (height_bounds : ℝ × ℝ)
    (height_step : ℝ) : ℝ :=
  max height_bounds.1
    (min (position.2.2 + ((actionVec action_idx).2.2 : ℝ) * height_step) height_bounds.2)

/-- The hill list scanned by `apply_action`:
`for h in range(min(len(CENTERS), len(BASE_RADIUS), len(LAYERS)))` zips the
three parallel config lists. -/
def hillList (CENTERS : List (ℝ × ℝ)) (BASE_RADIUS LAYERS : List ℝ) :
    List ((ℝ × ℝ) × ℝ × ℝ) :=
  CENTERS.zip (BASE_RADIUS.zip LAYERS)

/-- The hill loop of `apply_action`: at the first hill whose footprint
contains `(nx, ny)` with `nz ≤ LAYERS[h] * scale` while the action moves
horizontally, revert to `(px, py)` and stop; otherwise keep `(nx, ny)`. -/
noncomputable def hillScan (hills : List ((ℝ × ℝ) × ℝ × ℝ)) (scale : ℝ)
    (movingH : Prop) (px py nx ny nz : ℝ) : ℝ × ℝ :=
  match hills with
  | [] => (nx, ny)
  | e :: rest =>
    if Real.sqrt ((nx - e.1.1) ^ 2 + (ny - e.1.2) ^ 2) ≤ e.2.1 ∧ movingH ∧ nz ≤ e.2.2 * scale
    then (px, py)
    else hillScan rest scale movingH px py nx ny nz

/-- The `apply_action` itself. -/
noncomputable def apply_action (CENTERS : List (ℝ × ℝ)) (BASE_RADIUS LAYERS : List ℝ)
    (scale : ℝ) (position : P3) (action_idx : Fin 10) (bounds : ℝ × ℝ × ℝ × ℝ)
    (height_bounds : ℝ × ℝ) (step_size height_step : ℝ) : P3 :=
  let a := actionVec action_idx
  let new_x := destX position action_idx bounds step_size
  let new_y := destY position action_idx bounds step_size
  let new_z := destZ position action_idx height_bounds height_step
  let moving_horizontally := a.1 ≠ 0 ∨ a.2.1 ≠ 0
  let p := hillScan (hillList CENTERS BASE_RADIUS LAYERS) scale moving_horizontally
    position.1 position.2.1 new_x new_y new_z
  (p.1, p.2, new_z)

/-- The `calculate_reward` (rl_agent.py): signal-improvement reward with bonuses.
NaN/Inf sanitisation is unreachable over `ℝ`; the `≤ 0` distance defaults are
kept. -/
noncomputable def calculate_reward (rx_power_dbm_direct rx_power_dbm_relay
    tx_distance_direct tx_distance_relay drone_height avg_terrain_height : ℝ)
    (threshold_good threshold_bad : ℝ) : ℝ :=
  let tdd := if tx_distance_direct ≤ 0 then 1000.0 else tx_distance_direct
  let tdr := if tx_distance_relay ≤ 0 then 1000.0 else tx_distance_relay
  let improvement := rx_power_dbm_relay - rx_power_dbm_direct
  let reward := improvement * 0.5
  let reward := if rx_power_dbm_relay > threshold_good then reward + 10.0
    else if rx_power_dbm_relay < threshold_bad then reward - 5.0 else reward
  let reward := if tdr < tdd then reward + 2.0 else reward
  let height_above_terrain := drone_height - avg_terrain_height
  let reward := if height_above_terrain > 20 then reward + 3.0
    else if height_above_terrain < 10 then reward - 1.0 else reward
  reward

/-- The `update_q_table` (rl_agent.py): the Q-learning update
`Q(s,a) += α (r + γ max Q(s',·) − Q(s,a))`, with lazy initialisation of both
states and of the action key. -/
noncomputable def update_q_table (lr df : ℝ) (t : QTable) (state : QState) (action : ℤ)
    (reward : ℝ) (next_state : QState) : QTable :=
  let t1 := ensureState t state
  let acts := (lookupA t1 state).getD []
  let acts1 := if lookupA acts action = none then upsert acts action 0 else acts
  let t2 := upsert t1 state acts1
  let current_q := (lookupA acts1 action).getD 0
  let t3 := ensureState t2 next_state
  let nacts := (lookupA t3 next_state).getD []
  let max_next_q : ℝ :=
    match nacts.map Prod.snd with
    | [] => 0
    | v :: vs => vs.foldl max v
  let new_q := current_q + lr * (reward + df * max_next_q - current_q)
  upsert t3 state (upsert acts1 action new_q)

/-- The signal-metrics dict fields read by `step`. -/
structure StepMetrics where
  rx_power_dbm_direct : ℝ
  rx_power_dbm_relay : ℝ
  tx_distance_direct : ℝ
  tx_distance_relay : ℝ

/-- The `step` (rl_agent.py lines 288-333): discretize, select, move, reward,
optionally update, bump the step counter.  Returns the mutated agent together
with `(new_position, action, reward)`.  `avg_height` models
`terrain_info.get("avg_height", 0)`; the hill config and the numpy draws are
passed explicitly as for `apply_action` and `select_action`. -/
noncomputable def step (ag : DroneRLAgent) (CENTERS : List (ℝ × ℝ))
    (BASE_RADIUS LAYERS : List ℝ) (scale : ℝ) (position : P3)
    (bounds : ℝ × ℝ × ℝ × ℝ) (height_bounds : ℝ × ℝ) (signal_metrics : StepMetrics)
    (avg_height : ℝ) (training : Bool) (randFloat : ℝ) (randInt : ℤ)
    (pick : List ℤ → ℤ) (action_of : ℤ → Fin 10) :
    DroneRLAgent × P3 × ℤ × ℝ :=
  let state := ag.discretize_position position bounds height_bounds
  let sel := ag.select_action state training randFloat randInt pick
  let action := sel.1
  let t1 := sel.2
  let new_position := apply_action CENTERS BASE_RADIUS LAYERS scale position
    (action_of action) bounds height_bounds 10 5
  let new_state := ag.discretize_position new_position bounds height_bounds
  let reward := calculate_reward signal_metrics.rx_power_dbm_direct
    signal_metrics.rx_power_dbm_relay signal_metrics.tx_distance_direct
    signal_metrics.tx_distance_relay new_position.2.2 avg_height (-50) (-80)
  let t2 := if training = true then update_q_table ag.learning_rate ag.discount_factor
    t1 state action reward new_state else t1
  ({ ag with q_table := t2, step_count := ag.step_count + 1 }, new_position, action, reward)

/-- The `end_episode` (rl_agent.py lines 335-339): decay epsilon once, floored at
`epsilon_min`, and bump the episode counter. -/
noncomputable def end_episode (ag : DroneRLAgent) : DroneRLAgent :=
  let eps := max ag.epsilon_min (ag.epsilon * ag.epsilon_decay)
  { ag with
    epsilon := eps
    episode_count := ag.episode_count + 1
    learning_history := ag.learning_history ++ [eps] }

end DroneRLAgent

/-! ## elements/rl_agent.py — policy persistence

Python serialises the Q-table keyed by `str(state)` (e.g. `"(1, 2, 3)"`) and
the action ids by `str(int)` (JSON turns int dict keys into strings); loading
recovers them with `ast.literal_eval` / `int()`.  Strings are modelled as
lists of character codes (`List ℕ`): 40 `(`, 41 `)`, 44 `,`, 32 space, 45 `-`
and 48–57 the digits. -/

/-- Decimal digit characters of a natural number, most significant first
(the character codes of Python `str(n)` for `n ≥ 0`). -/
def natChars (n : ℕ) : List ℕ :=
  if n < 10 then [48 + n] else natChars (n / 10) ++ [48 + n % 10]
decreasing_by exact Nat.div_lt_self (by omega) (by omega)

/-- Character codes of Python `str(i)` for an integer. -/
def intChars (i : ℤ) : List ℕ :=
  if i < 0 then 45 :: natChars i.natAbs else natChars i.toNat

/-- Is a character code a decimal digit? -/
def isDigitCode (c : ℕ) : Bool := 48 ≤ c && c ≤ 57

/-- Consume a maximal run of digit characters, accumulating their value
(the core of the `int()` / `ast.literal_eval` behaviour on digit strings). -/
def takeDigits : List ℕ → ℕ → ℕ × List ℕ
  | [], acc => (acc, [])
  | c :: rest, acc =>
    if isDigitCode c then takeDigits rest (acc * 10 + (c - 48)) else (acc, c :: rest)

/-- Parse a nonempty digit run into a natural number, returning the rest. -/
def parseNat : List ℕ → Option (ℕ × List ℕ)
  | [] => none
  | c :: rest => if isDigitCode c then some (takeDigits rest (c - 48)) else none

/-- Parse an optionally `-`-signed integer, returning the rest. -/
def parseInteg : List ℕ → Option (ℤ × List ℕ)
  | [] => none
  | c :: rest =>
    if c = 45 then (parseNat rest).map fun p => (-(p.1 : ℤ), p.2)
    else (parseNat (c :: rest)).map fun p => ((p.1 : ℤ), p.2)

/-- Python `int(s)`: the whole string must be one signed integer. -/
def parseIntAll (cs : List ℕ) : Option ℤ :=
  match parseInteg cs with
  | some (i, []) => some i
  | _ => none

/-- Expect one specific character code. -/
def expectCode (c : ℕ) : List ℕ → Option (List ℕ)
  | [] => none
  | d :: rest => if d = c then some rest else none

/-- The `str(state)` for a state tuple — `"(gx, gy, gz)"`. -/
def stateKey (s : QState) : List ℕ :=
  [40] ++ intChars s.1 ++ [44, 32] ++ intChars s.2.1 ++ [44, 32] ++ intChars s.2.2 ++ [41]

/-- The `ast.literal_eval` restricted to the `"(gx, gy, gz)"` key format produced
by `save_policy` (other strings — which a hand-crafted file could contain —
are treated as unparsable and their entries skipped). -/
def parseState (cs : List ℕ) : Option QState :=
  (expectCode 40 cs).bind fun r1 =>
  (parseInteg r1).bind fun p1 =>
  (expectCode 44 p1.2).bind fun r3 =>
  (expectCode 32 r3).bind fun r4 =>
  (parseInteg r4).bind fun p2 =>
  (expectCode 44 p2.2).bind fun r6 =>
  (expectCode 32 r6).bind fun r7 =>
  (parseInteg r7).bind fun p3 =>
  match expectCode 41 p3.2 with
  | some [] => some (p1.1, p2.1, p3.1)
  | _ => none

/-- The JSON policy file written by `save_policy`: the Q-table keyed by
string state keys with string action ids, plus epsilon and the counters.
(JSON round-trips the float values exactly; they stay `ℝ` here.) -/
structure SavedPolicy where
  q_table : List (List ℕ × List (List ℕ × ℝ))
  epsilon : ℝ
  step_count : ℤ
  episode_count : ℤ

namespace DroneRLAgent

/-- The `save_policy` (rl_agent.py lines 350-371): serialise the Q-table keyed by
`str(state)`, with each action dict keyed by `str(action_id)`. -/
def save_policy (ag : DroneRLAgent) : SavedPolicy :=
  ⟨ag.q_table.map fun e => (stateKey e.1, e.2.map fun kv => (intChars kv.1, kv.2)),
    ag.epsilon, ag.step_count, ag.episode_count⟩

/-- The `action_dict` reconstruction in `load_policy`: start from all ten
zeros, then overwrite at each parsable integer key (unparsable keys are
skipped by the inner `except`). -/
def buildActionDict (entries : List (List ℕ × ℝ)) : ActMap :=
  entries.foldl
    (fun ad kv =>
      match parseIntAll kv.1 with
      | some k => upsert ad k kv.2
      | none => ad)
    zeroActs

/-- The `load_policy` (rl_agent.py lines 373-407): rebuild the Q-table from the
file, skipping entries whose state key does not parse, and restore epsilon
and the counters. -/
def load_policy (ag : DroneRLAgent) (policy : SavedPolicy) : DroneRLAgent :=
  let tbl := policy.q_table.foldl
    (fun t e =>
      match parseState e.1 with
      | some st => upsert t st (buildActionDict e.2)
      | none => t)
    []
  { ag with
    q_table := tbl
    epsilon := policy.epsilon
    step_count := policy.step_count
    episode_count := policy.episode_count }

end DroneRLAgent

/-! ## Helper lemmas -/

/-- Square-root evaluation helper for concrete witnesses. -/
lemma sqrt_of_sq (a : ℝ) (h : 0 ≤ a) : Real.sqrt (a ^ 2) = a := Real.sqrt_sq h

/-- A value guarded by the negative-fallback branch is nonnegative. -/
lemma clampNeg (t : ℝ) : 0 ≤ if t < 0 then (80.0 : ℝ) else t := by
  split
  · norm_num
  · linarith [not_lt.mp (by assumption : ¬ t < 0)]

/-- A distance guarded by the `≤ 0` floor is positive. -/
lemma clampPos (d : ℝ) : 0 < if d ≤ 0 then (1.0 : ℝ) else d := by
  split
  · norm_num
  · linarith [not_le.mp (by assumption : ¬ d ≤ 0)]

/-- The `total` field of a segment loss is never negative (the `< 0` branch
replaces it by `80.0`). -/
lemma calculate_segment_loss_total_nonneg (p q : P3) (hills : List Hill) (f : ℝ) :
    0 ≤ (calculate_segment_loss p q hills f).total := by
  unfold calculate_segment_loss
  exact clampNeg _

/-- The empty-list early return of `rl_multi_hill_diffraction` agrees with the
empty sum, so the function is simply the sum of the per-hill terms. -/
lemma rl_multi_hill_diffraction_eq_sum (tx rx : P3) (hills : List Hill) (f : ℝ) :
    rl_multi_hill_diffraction tx rx hills f = (hills.map (hillLossTerm tx rx f)).sum := by
  unfold rl_multi_hill_diffraction
  split
  · simp [*]
  · rfl

/-! ## C6 -/

/-- C6: `calculate_multihop_relay_loss` with an empty relay list returns
exactly the single segment `calculate_segment_loss tx rx`, with total loss
equal to that segment's total and hop count 1. -/
theorem C6_multihop_empty_relays (tx rx : P3) (hills : List Hill) (f : ℝ) :
    calculate_multihop_relay_loss tx [] rx hills f =
      ⟨[calculate_segment_loss tx rx hills f],
        (calculate_segment_loss tx rx hills f).total, 1, [tx, rx]⟩ := by
  have h0 := calculate_segment_loss_total_nonneg tx rx hills f
  unfold calculate_multihop_relay_loss
  simp only [List.nil_append, List.cons_append, List.tail_cons, List.zip_cons_cons,
    List.zip_nil_right, List.map_cons, List.map_nil, List.sum_cons, List.sum_nil,
    add_zero, List.length_cons, List.length_nil]
  rw [if_neg (not_lt.mpr h0)]

/-! ## C2 -/

/-- C2 (amended): the `distance` field of `calculate_segment_loss` equals the
Euclidean distance whenever that is positive and is replaced by `1.0` exactly
when the Euclidean distance is `≤ 0`; in particular it is always positive,
but it is NOT floored at `1.0`. -/
theorem C2_segment_distance_characterisation (p q : P3) (hills : List Hill) (f : ℝ) :
    0 < (calculate_segment_loss p q hills f).distance ∧
    (calculate_segment_loss p q hills f).distance =
      (if calculate_distance p q ≤ 0 then 1.0 else calculate_distance p q) := by
  refine ⟨?_, rfl⟩
  unfold calculate_segment_loss
  exact clampPos _

/-- C2 counterexample: for the near-coincident pair `(0,0,0)`, `(1/2,0,0)`
the returned `distance` field is `1/2 < 1.0`, refuting the claim that the
distance field is always at least `1.0`. -/
theorem C2_counterexample :
    (calculate_segment_loss (0, 0, 0) (1/2, 0, 0) [] 2.4e9).distance < 1 := by
  have hd : calculate_distance (0, 0, 0) (1/2, 0, 0) = 1/2 := by
    unfold calculate_distance
    rw [show ((1/2 - 0 : ℝ) ^ 2 + (0 - 0 : ℝ) ^ 2 + (0 - 0 : ℝ) ^ 2) = (1/2 : ℝ) ^ 2 by norm_num]
    exact sqrt_of_sq _ (by norm_num)
  have : (calculate_segment_loss (0, 0, 0) (1/2, 0, 0) [] 2.4e9).distance = 1/2 := by
    unfold calculate_segment_loss
    dsimp only
    rw [hd, if_neg (by norm_num)]
  rw [this]; norm_num

/-! ## C8 -/

/-- C8: on the positive domain, `free_space_path_loss` is strictly increasing
in the distance and in the frequency. -/
theorem C8_fspl_strict_mono (d d1 d2 f f1 f2 : ℝ) (hd : 0 < d) (hd1 : 0 < d1)
    (hd12 : d1 < d2) (hf : 0 < f) (hf1 : 0 < f1) (hf12 : f1 < f2) :
    free_space_path_loss d1 f < free_space_path_loss d2 f ∧
    free_space_path_loss d f1 < free_space_path_loss d f2 := by
  unfold free_space_path_loss
  rw [if_neg (not_le.mpr hd1), if_neg (not_le.mpr (hd1.trans hd12)),
    if_neg (not_le.mpr hf), if_neg (not_le.mpr hd), if_neg (not_le.mpr hf1),
    if_neg (not_le.mpr (hf1.trans hf12))]
  have h1 : Real.logb 10 d1 < Real.logb 10 d2 :=
    Real.logb_lt_logb (by norm_num) hd1 hd12
  have h2 : Real.logb 10 f1 < Real.logb 10 f2 :=
    Real.logb_lt_logb (by norm_num) hf1 hf12
  constructor <;> linarith

/-- C8 witness: concrete instance at `d : 1 < 2` (`f = 2400`) and
`f : 2400 < 4800` (`d = 1`). -/
theorem C8_fspl_strict_mono_witness :
    free_space_path_loss 1 2400 < free_space_path_loss 2 2400 ∧
    free_space_path_loss 1 2400 < free_space_path_loss 1 4800 :=
  C8_fspl_strict_mono 1 1 2 2400 2400 4800 (by norm_num) (by norm_num)
    (by norm_num) (by norm_num) (by norm_num) (by norm_num)

/-! ## C5 -/

/-- The `end_episode` never touches the decay parameters. -/
lemma end_episode_iterate_params (E : ℕ) (a : DroneRLAgent) :
    (DroneRLAgent.end_episode^[E] a).epsilon_min = a.epsilon_min ∧
    (DroneRLAgent.end_episode^[E] a).epsilon_decay = a.epsilon_decay := by
  induction E with
  | zero => exact ⟨rfl, rfl⟩
  | succ n ih =>
    rw [Function.iterate_succ_apply']
    exact ⟨ih.1, ih.2⟩

/-- C5: after `E` calls of `end_episode` on a fresh agent, epsilon equals
`max epsilon_min (epsilon_start * decay ^ E)`; it is never below
`epsilon_min` and never increases from one episode to the next.  (Stated for
decay parameters that are actual decay rates: `0 ≤ decay ≤ 1`,
`0 ≤ epsilon_min ≤ epsilon_start`.) -/
theorem C5_epsilon_schedule (gs hl : ℤ) (lr df es emin edec : ℝ) (E : ℕ)
    (hmin : 0 ≤ emin) (hdec0 : 0 ≤ edec) (hdec1 : edec ≤ 1) (hstart : emin ≤ es) :
    (DroneRLAgent.end_episode^[E] (mkDroneRLAgent gs hl lr df es emin edec)).epsilon
        = max emin (es * edec ^ E) ∧
    emin ≤ (DroneRLAgent.end_episode^[E] (mkDroneRLAgent gs hl lr df es emin edec)).epsilon ∧
    (DroneRLAgent.end_episode^[E + 1] (mkDroneRLAgent gs hl lr df es emin edec)).epsilon
        ≤ (DroneRLAgent.end_episode^[E] (mkDroneRLAgent gs hl lr df es emin edec)).epsilon := by
  have hes : 0 ≤ es := hmin.trans hstart
  have key : ∀ n : ℕ,
      (DroneRLAgent.end_episode^[n] (mkDroneRLAgent gs hl lr df es emin edec)).epsilon
        = max emin (es * edec ^ n) := by
    intro n
    induction n with
    | zero => simpa [mkDroneRLAgent] using (max_eq_right hstart).symm
    | succ m ih =>
      rw [Function.iterate_succ_apply', DroneRLAgent.end_episode]
      have hp := end_episode_iterate_params m (mkDroneRLAgent gs hl lr df es emin edec)
      dsimp only
      rw [hp.1, hp.2, ih]
      show max emin (max emin (es * edec ^ m) * edec) = _
      rw [max_mul_of_nonneg _ _ hdec0, ← max_assoc,
        max_eq_left (mul_le_of_le_one_right hmin hdec1), mul_assoc, ← pow_succ]
  refine ⟨key E, (key E).symm ▸ le_max_left _ _, ?_⟩
  rw [key E, key (E + 1)]
  refine max_le_max le_rfl ?_
  exact mul_le_mul_of_nonneg_left (pow_le_pow_of_le_one hdec0 hdec1 (Nat.le_succ E)) hes

/-- C5 witness: the schedule at the source defaults
(`epsilon_start = 0.3`, `epsilon_min = 0.05`, `decay = 0.995`) after 2
episodes. -/
theorem C5_epsilon_schedule_witness :
    (DroneRLAgent.end_episode^[2] (mkDroneRLAgent 20 5 0.1 0.95 0.3 0.05 0.995)).epsilon
        = max 0.05 (0.3 * 0.995 ^ 2) ∧
    (0.05 : ℝ) ≤ (DroneRLAgent.end_episode^[2] (mkDroneRLAgent 20 5 0.1 0.95 0.3 0.05 0.995)).epsilon ∧
    (DroneRLAgent.end_episode^[2 + 1] (mkDroneRLAgent 20 5 0.1 0.95 0.3 0.05 0.995)).epsilon
        ≤ (DroneRLAgent.end_episode^[2] (mkDroneRLAgent 20 5 0.1 0.95 0.3 0.05 0.995)).epsilon :=
  C5_epsilon_schedule 20 5 0.1 0.95 0.3 0.05 0.995 2 (by norm_num) (by norm_num)
    (by norm_num) (by norm_num)

/-! ## C7 -/

/-- C7: an obstruction whose height is at most the interpolated line-of-sight
height at its segment midpoint (intrusion `h ≤ 0`) contributes exactly 0 to
the knife-edge diffraction loss: the total equals the total with that
obstruction removed from the list. -/
theorem C7_below_los_contributes_zero (tx rx : P3) (o : Hill) (pre post : List Hill)
    (f : ℝ) (h : hillIntrusion tx rx o ≤ 0) :
    rl_multi_hill_diffraction tx rx (pre ++ o :: post) f =
      rl_multi_hill_diffraction tx rx (pre ++ post) f := by
  have hterm : hillLossTerm tx rx f o = 0 := by
    unfold hillLossTerm
    rw [if_pos h]
  rw [rl_multi_hill_diffraction_eq_sum, rl_multi_hill_diffraction_eq_sum,
    List.map_append, List.map_append, List.map_cons, List.sum_append, List.sum_append,
    List.sum_cons, hterm, zero_add]

/-- C7 witness: transmitter `(0,0,5)`, receiver `(8,0,5)`, one hill of height
3 whose segment midpoint is `(4,0)` — line-of-sight height there is 5, so the
intrusion is `-2 ≤ 0` and the hill contributes nothing. -/
theorem C7_below_los_contributes_zero_witness :
    rl_multi_hill_diffraction (0, 0, 5) (8, 0, 5) [⟨(4, -1), (4, 1), 3⟩] 2.4e9 =
      rl_multi_hill_diffraction (0, 0, 5) (8, 0, 5) [] 2.4e9 := by
  have hd : calculate_distance (0, 0, 5) (8, 0, 5) = 8 := by
    unfold calculate_distance
    rw [show ((8 - 0 : ℝ) ^ 2 + (0 - 0 : ℝ) ^ 2 + (5 - 5 : ℝ) ^ 2) = (8 : ℝ) ^ 2 by norm_num]
    exact sqrt_of_sq _ (by norm_num)
  have hintr : hillIntrusion (0, 0, 5) (8, 0, 5) ⟨(4, -1), (4, 1), 3⟩ ≤ 0 := by
    unfold hillIntrusion
    rw [hd]
    have hm : Real.sqrt ((((4 : ℝ) + 4) / 2 - 0) ^ 2 + (((-1 : ℝ) + 1) / 2 - 0) ^ 2) = 4 := by
      rw [show (((4 : ℝ) + 4) / 2 - 0) ^ 2 + (((-1 : ℝ) + 1) / 2 - 0) ^ 2 = (4 : ℝ) ^ 2 by norm_num]
      exact sqrt_of_sq _ (by norm_num)
    dsimp only
    rw [hm, if_neg (by norm_num), if_neg (by norm_num)]
    norm_num
  exact C7_below_los_contributes_zero (0, 0, 5) (8, 0, 5) ⟨(4, -1), (4, 1), 3⟩ [] [] 2.4e9 hintr

/-! ## C3 -/

/-- Rational upper bound `log10 2400 < 6761/2000 = 3.3805`, via the integer
inequality `2400 ^ 2000 < 10 ^ 6761`. -/
lemma logb_ten_2400_lt : Real.logb 10 2400 < 6761 / 2000 := by
  have hnat : (2400 : ℕ) ^ 2000 < 10 ^ 6761 := by norm_num
  have hreal : (2400 : ℝ) ^ (2000 : ℕ) < 10 ^ (6761 : ℕ) := by exact_mod_cast hnat
  have hlog := Real.logb_lt_logb (b := 10) (by norm_num)
    (pow_pos (by norm_num) 2000) hreal
  rw [Real.logb_pow, Real.logb_pow, Real.logb_self_eq_one (by norm_num)] at hlog
  push_cast at hlog
  linarith

/-- Rational lower bound `169/50 = 3.38 < log10 2400`, via the integer
inequality `10 ^ 169 < 2400 ^ 50`. -/
lemma logb_ten_2400_gt : (169 : ℝ) / 50 < Real.logb 10 2400 := by
  have hnat : (10 : ℕ) ^ 169 < 2400 ^ 50 := by norm_num
  have hreal : (10 : ℝ) ^ (169 : ℕ) < 2400 ^ (50 : ℕ) := by exact_mod_cast hnat
  have hlog := Real.logb_lt_logb (b := 10) (by norm_num)
    (pow_pos (by norm_num) 169) hreal
  rw [Real.logb_pow, Real.logb_pow, Real.logb_self_eq_one (by norm_num)] at hlog
  push_cast at hlog
  linarith

/-- The `free_space_path_loss` at the nominal point: no floor fires and
`log10 1 = 0`. -/
lemma fspl_one_2400 : free_space_path_loss 1 2400 = 20 * Real.logb 10 2400 - 27.56 := by
  unfold free_space_path_loss
  rw [if_neg (by norm_num), if_neg (by norm_num)]
  dsimp only
  rw [Real.logb_one]
  ring

/-- C3 (amended): `free_space_path_loss 1.0 2400.0` is approximately
40.04 dB, within 0.01 dB (the exact value is `20·log10 2400 − 27.56
≈ 40.0442`). -/
theorem C3_fspl_nominal_value : |free_space_path_loss 1 2400 - 40.04| ≤ 0.01 := by
  rw [fspl_one_2400]
  have h1 := logb_ten_2400_lt
  have h2 := logb_ten_2400_gt
  rw [abs_le]
  constructor <;> nlinarith

/-- C3 counterexample: the value claimed by the spec, 40.19 dB (±0.01), is
wrong — the function's value at `(1.0, 2400.0)` is below 40.18 dB. -/
theorem C3_counterexample : ¬ |free_space_path_loss 1 2400 - 40.19| ≤ 0.01 := by
  intro hcontra
  have hlow := (abs_le.mp hcontra).1
  rw [fspl_one_2400] at hlow
  have h1 := logb_ten_2400_lt
  nlinarith

/-! ## C1 -/

/-- The `distance` field of a segment loss, by definition. -/
lemma seg_dist_eq (p q : P3) (hills : List Hill) (f : ℝ) :
    (calculate_segment_loss p q hills f).distance =
      if calculate_distance p q ≤ 0 then 1.0 else calculate_distance p q := rfl

/-- Evaluate `calculate_distance` at concrete points via a square witness. -/
lemma calc_dist_eval (p q : P3) (a : ℝ) (ha : 0 ≤ a)
    (h : (q.1 - p.1) ^ 2 + (q.2.1 - p.2.1) ^ 2 + (q.2.2 - p.2.2) ^ 2 = a ^ 2) :
    calculate_distance p q = a := by
  unfold calculate_distance
  rw [h]
  exact Real.sqrt_sq ha

/-- C1 (amended): `get_drone_signal_metrics` builds the relay figures from
the multi-hop chain through the whole fleet list (`cf.drones`) — transmitter
→ drone₀ → … → droneₙ₋₁ → receiver — not from a single-hop chain through the
queried node: the relay loss, relay power and relay distance all come from
`calculate_multihop_relay_loss` over all drones, and the node's own
`drone_pos` argument does not influence the result at all. -/
theorem C1_metrics_use_whole_fleet (txp : ℝ) (tx rx dp dp2 : P3) (drones : List P3)
    (hills : List Hill) (f dpl : ℝ) :
    (get_drone_signal_metrics txp tx rx dp drones hills f dpl).relay_total_loss
        = (calculate_multihop_relay_loss tx drones rx hills f).total_loss ∧
    (get_drone_signal_metrics txp tx rx dp drones hills f dpl).rx_power_dbm_relay
        = txp - (calculate_multihop_relay_loss tx drones rx hills f).total_loss ∧
    (get_drone_signal_metrics txp tx rx dp drones hills f dpl).tx_distance_relay
        = (if ((calculate_multihop_relay_loss tx drones rx hills f).segment_losses.map
              LossResult.distance).sum ≤ 0 then 1.0
           else ((calculate_multihop_relay_loss tx drones rx hills f).segment_losses.map
              LossResult.distance).sum) ∧
    get_drone_signal_metrics txp tx rx dp drones hills f dpl
        = get_drone_signal_metrics txp tx rx dp2 drones hills f dpl :=
  ⟨rfl, rfl, rfl, rfl⟩

/-- C1 counterexample: with the fleet `[(1,0,0), (0,0,0)]`, the relay
distance handed to drone 0 (at `(1,0,0)`) is the full-chain length 4, not the
single-hop tx → drone₀ → rx length 2 that the same function reports when the
fleet consists of drone 0 alone — so the metrics are not single-hop and
depend on the other drone's position. -/
theorem C1_counterexample :
    (get_drone_signal_metrics 20 ((0, 0, 0) : P3) ((2, 0, 0) : P3) ((1, 0, 0) : P3)
        [((1, 0, 0) : P3), ((0, 0, 0) : P3)] [] 2.4e9 80).tx_distance_relay
      ≠ (get_drone_signal_metrics 20 ((0, 0, 0) : P3) ((2, 0, 0) : P3) ((1, 0, 0) : P3)
        [((1, 0, 0) : P3)] [] 2.4e9 80).tx_distance_relay := by
  have e1 : calculate_distance ((0, 0, 0) : P3) ((1, 0, 0) : P3) = 1 :=
    calc_dist_eval _ _ 1 (by norm_num) (by norm_num)
  have e2 : calculate_distance ((1, 0, 0) : P3) ((0, 0, 0) : P3) = 1 :=
    calc_dist_eval _ _ 1 (by norm_num) (by norm_num)
  have e3 : calculate_distance ((0, 0, 0) : P3) ((2, 0, 0) : P3) = 2 :=
    calc_dist_eval _ _ 2 (by norm_num) (by norm_num)
  have e4 : calculate_distance ((1, 0, 0) : P3) ((2, 0, 0) : P3) = 1 :=
    calc_dist_eval _ _ 1 (by norm_num) (by norm_num)
  have lhs : (get_drone_signal_metrics 20 ((0, 0, 0) : P3) ((2, 0, 0) : P3) ((1, 0, 0) : P3)
      [((1, 0, 0) : P3), ((0, 0, 0) : P3)] [] 2.4e9 80).tx_distance_relay = 4 := by
    simp only [get_drone_signal_metrics, calculate_multihop_relay_loss,
      List.cons_append, List.nil_append, List.tail_cons, List.zip_cons_cons,
      List.zip_nil_right, List.map_cons, List.map_nil, seg_dist_eq,
      e1, e2, e3, List.sum_cons, List.sum_nil]
    norm_num
  have rhs : (get_drone_signal_metrics 20 ((0, 0, 0) : P3) ((2, 0, 0) : P3) ((1, 0, 0) : P3)
      [((1, 0, 0) : P3)] [] 2.4e9 80).tx_distance_relay = 2 := by
    simp only [get_drone_signal_metrics, calculate_multihop_relay_loss,
      List.cons_append, List.nil_append, List.tail_cons, List.zip_cons_cons,
      List.zip_nil_right, List.map_cons, List.map_nil, seg_dist_eq,
      e1, e4, List.sum_cons, List.sum_nil]
    norm_num
  rw [lhs, rhs]
  norm_num

/-! ## C4 -/

/-- If some hill in the scanned list blocks the (horizontally moving)
destination, the hill loop reverts to the pre-move `(px, py)`. -/
lemma hillScan_of_blocked (hills : List ((ℝ × ℝ) × ℝ × ℝ)) (scale : ℝ) (moving : Prop)
    (px py nx ny nz : ℝ) (hm : moving)
    (hb : ∃ e ∈ hills, Real.sqrt ((nx - e.1.1) ^ 2 + (ny - e.1.2) ^ 2) ≤ e.2.1 ∧
      nz ≤ e.2.2 * scale) :
    DroneRLAgent.hillScan hills scale moving px py nx ny nz = (px, py) := by
  induction hills with
  | nil =>
    rcases hb with ⟨e, he, _⟩
    exact absurd he (List.not_mem_nil e)
  | cons hd tl ih =>
    unfold DroneRLAgent.hillScan
    split
    · rfl
    · rename_i hcond
      apply ih
      rcases hb with ⟨e, he, h1, h2⟩
      rcases List.mem_cons.mp he with rfl | hmem
      · exact absurd ⟨h1, hm, h2⟩ hcond
      · exact ⟨e, hmem, h1, h2⟩

/-- Without a horizontal component the hill loop never reverts. -/
lemma hillScan_of_not_moving (hills : List ((ℝ × ℝ) × ℝ × ℝ)) (scale : ℝ) (moving : Prop)
    (px py nx ny nz : ℝ) (hm : ¬ moving) :
    DroneRLAgent.hillScan hills scale moving px py nx ny nz = (nx, ny) := by
  induction hills with
  | nil => rfl
  | cons hd tl ih =>
    unfold DroneRLAgent.hillScan
    rw [if_neg fun hc => hm hc.2.1]
    exact ih

/-- C4: (a) for a start inside the configured bounds, an action with a
nonzero horizontal component whose clamped destination `(x,y)` falls inside
some hill's base radius while the resulting altitude is at most that hill's
height keeps `x,y` at the pre-action values while the (clamped) vertical
delta still applies; (b) an action with zero horizontal component is never
affected by the terrain rule: the result equals the result with no hills
configured. -/
theorem C4_terrain_rule :
    (∀ (CENTERS : List (ℝ × ℝ)) (BASE_RADIUS LAYERS : List ℝ) (scale : ℝ) (pos : P3)
      (a : Fin 10) (bounds : ℝ × ℝ × ℝ × ℝ) (hb : ℝ × ℝ) (step_size height_step : ℝ),
      bounds.1 ≤ pos.1 → pos.1 ≤ bounds.2.1 →
      bounds.2.2.1 ≤ pos.2.1 → pos.2.1 ≤ bounds.2.2.2 →
      hb.1 ≤ pos.2.2 → pos.2.2 ≤ hb.2 →
      ((actionVec a).1 ≠ 0 ∨ (actionVec a).2.1 ≠ 0) →
      (∃ e ∈ DroneRLAgent.hillList CENTERS BASE_RADIUS LAYERS,
        Real.sqrt ((DroneRLAgent.destX pos a bounds step_size - e.1.1) ^ 2 +
            (DroneRLAgent.destY pos a bounds step_size - e.1.2) ^ 2) ≤ e.2.1 ∧
          DroneRLAgent.destZ pos a hb height_step ≤ e.2.2 * scale) →
      DroneRLAgent.apply_action CENTERS BASE_RADIUS LAYERS scale pos a bounds hb
          step_size height_step
        = (pos.1, pos.2.1, DroneRLAgent.destZ pos a hb height_step)) ∧
    (∀ (CENTERS : List (ℝ × ℝ)) (BASE_RADIUS LAYERS : List ℝ) (scale : ℝ) (pos : P3)
      (a : Fin 10) (bounds : ℝ × ℝ × ℝ × ℝ) (hb : ℝ × ℝ) (step_size height_step : ℝ),
      (actionVec a).1 = 0 → (actionVec a).2.1 = 0 →
      DroneRLAgent.apply_action CENTERS BASE_RADIUS LAYERS scale pos a bounds hb
          step_size height_step
        = DroneRLAgent.apply_action [] [] [] scale pos a bounds hb step_size height_step) := by
  constructor
  · intro CENTERS BASE_RADIUS LAYERS scale pos a bounds hb step_size height_step
      _ _ _ _ _ _ hmove hblock
    unfold DroneRLAgent.apply_action
    dsimp only
    rw [hillScan_of_blocked _ _ _ _ _ _ _ _ hmove hblock]
  · intro CENTERS BASE_RADIUS LAYERS scale pos a bounds hb step_size height_step h1 h2
    have hnm : ¬ ((actionVec a).1 ≠ 0 ∨ (actionVec a).2.1 ≠ 0) := by
      rintro (hc | hc)
      · exact hc h1
      · exact hc h2
    unfold DroneRLAgent.apply_action
    dsimp only
    rw [hillScan_of_not_moving _ _ _ _ _ _ _ _ hnm,
      hillScan_of_not_moving _ _ _ _ _ _ _ _ hnm]

/-- C4 witness: one hill centred at the origin with base radius 50 and
height 10·10 = 100; from `(10,0,20)` the eastward action 2 is blocked
(destination `(20,0)` is 20 from the centre, altitude 20 ≤ 100) while the
climb action 8 ignores the hill entirely. -/
theorem C4_terrain_rule_witness :
    DroneRLAgent.apply_action [((0 : ℝ), (0 : ℝ))] [50] [10] 10 ((10, 0, 20) : P3)
        (2 : Fin 10) (0, 100, 0, 100) (0, 200) 10 5
      = ((10 : ℝ), (0 : ℝ), DroneRLAgent.destZ ((10, 0, 20) : P3) (2 : Fin 10) (0, 200) 5) ∧
    DroneRLAgent.apply_action [((0 : ℝ), (0 : ℝ))] [50] [10] 10 ((10, 0, 20) : P3)
        (8 : Fin 10) (0, 100, 0, 100) (0, 200) 10 5
      = DroneRLAgent.apply_action [] [] [] 10 ((10, 0, 20) : P3) (8 : Fin 10)
          (0, 100, 0, 100) (0, 200) 10 5 := by
  have hx : DroneRLAgent.destX ((10, 0, 20) : P3) (2 : Fin 10) (0, 100, 0, 100) 10 = 20 := by
    show max (0 : ℝ) (min (10 + ((1 : ℤ) : ℝ) * 10) 100) = 20
    norm_num
  have hy : DroneRLAgent.destY ((10, 0, 20) : P3) (2 : Fin 10) (0, 100, 0, 100) 10 = 0 := by
    show max (0 : ℝ) (min (0 + ((0 : ℤ) : ℝ) * 10) 100) = 0
    norm_num
  have hz : DroneRLAgent.destZ ((10, 0, 20) : P3) (2 : Fin 10) (0, 200) 5 = 20 := by
    show max (0 : ℝ) (min (20 + ((0 : ℤ) : ℝ) * 5) 200) = 20
    norm_num
  constructor
  · refine C4_terrain_rule.1 [((0 : ℝ), (0 : ℝ))] [50] [10] 10 ((10, 0, 20) : P3) 2
      (0, 100, 0, 100) (0, 200) 10 5 (by norm_num) (by norm_num) (by norm_num)
      (by norm_num) (by norm_num) (by norm_num) (Or.inl (by decide)) ?_
    refine ⟨(((0 : ℝ), (0 : ℝ)), (50 : ℝ), (10 : ℝ)), by simp [DroneRLAgent.hillList], ?_, ?_⟩
    · rw [hx, hy]
      rw [show ((20 : ℝ) - 0) ^ 2 + ((0 : ℝ) - 0) ^ 2 = (20 : ℝ) ^ 2 by norm_num,
        sqrt_of_sq _ (by norm_num)]
      norm_num
    · rw [hz]
      norm_num
  · exact C4_terrain_rule.2 [((0 : ℝ), (0 : ℝ))] [50] [10] 10 ((10, 0, 20) : P3) 8
      (0, 100, 0, 100) (0, 200) 10 5 (by decide) (by decide)

/-! ## C10 -/

/-- A lookup that succeeds still succeeds after appending entries. -/
lemma lookupA_append_some {α β : Type} [DecidableEq α] (t l : List (α × β)) (s : α)
    (acts : β) (h : lookupA t s = some acts) : lookupA (t ++ l) s = some acts := by
  induction t with
  | nil => simp [lookupA] at h
  | cons e rest ih =>
    rw [List.cons_append]
    by_cases he : e.1 = s
    · simp only [lookupA, if_pos he] at h ⊢
      exact h
    · simp only [lookupA, if_neg he] at h ⊢
      exact ih h

/-- The `select_action` always returns the lazily extended table, whatever branch
it takes. -/
lemma select_action_table (ag : DroneRLAgent) (state : QState) (training : Bool)
    (randFloat : ℝ) (randInt : ℤ) (pick : List ℤ → ℤ) :
    (ag.select_action state training randFloat randInt pick).2 =
      DroneRLAgent.ensureState ag.q_table state := by
  unfold DroneRLAgent.select_action
  dsimp only
  split
  · rfl
  · split
    · rfl
    · split
      · rfl
      · rfl

/-- With `training = false`, `step` only extends the table lazily and bumps
the step counter. -/
lemma step_no_training_agent (ag : DroneRLAgent) (CENTERS : List (ℝ × ℝ))
    (BASE_RADIUS LAYERS : List ℝ) (scale : ℝ) (position : P3) (bounds : ℝ × ℝ × ℝ × ℝ)
    (height_bounds : ℝ × ℝ) (sm : DroneRLAgent.StepMetrics) (avg_height : ℝ)
    (randFloat : ℝ) (randInt : ℤ) (pick : List ℤ → ℤ) (action_of : ℤ → Fin 10) :
    (ag.step CENTERS BASE_RADIUS LAYERS scale position bounds height_bounds sm
        avg_height false randFloat randInt pick action_of).1 =
      { ag with
        q_table := DroneRLAgent.ensureState ag.q_table
          (ag.discretize_position position bounds height_bounds)
        step_count := ag.step_count + 1 } := by
  unfold DroneRLAgent.step
  dsimp only
  rw [select_action_table, if_neg (by decide : ¬ (false = true))]

/-- C10: a `step` with `training = False` leaves every Q-value already in the
table unchanged, leaves epsilon and the episode counter unchanged, increments
the step counter, and its only Q-table mutation is the lazy insertion of an
all-zeros entry for a previously unvisited current state. -/
theorem C10_step_no_training_frame (ag : DroneRLAgent) (CENTERS : List (ℝ × ℝ))
    (BASE_RADIUS LAYERS : List ℝ) (scale : ℝ) (position : P3) (bounds : ℝ × ℝ × ℝ × ℝ)
    (height_bounds : ℝ × ℝ) (sm : DroneRLAgent.StepMetrics) (avg_height : ℝ)
    (randFloat : ℝ) (randInt : ℤ) (pick : List ℤ → ℤ) (action_of : ℤ → Fin 10)
    (r : DroneRLAgent × P3 × ℤ × ℝ) (st : QState)
    (hr : r = ag.step CENTERS BASE_RADIUS LAYERS scale position bounds height_bounds sm
      avg_height false randFloat randInt pick action_of)
    (hst : st = ag.discretize_position position bounds height_bounds) :
    r.1.epsilon = ag.epsilon ∧
    r.1.episode_count = ag.episode_count ∧
    r.1.step_count = ag.step_count + 1 ∧
    (∀ s acts, lookupA ag.q_table s = some acts → lookupA r.1.q_table s = some acts) ∧
    (lookupA ag.q_table st = none → r.1.q_table = ag.q_table ++ [(st, zeroActs)]) ∧
    (lookupA ag.q_table st ≠ none → r.1.q_table = ag.q_table) := by
  subst hr hst
  rw [step_no_training_agent]
  refine ⟨rfl, rfl, rfl, ?_, ?_, ?_⟩
  · intro s acts h
    show lookupA (DroneRLAgent.ensureState ag.q_table _) s = some acts
    unfold DroneRLAgent.ensureState
    split
    · exact lookupA_append_some _ _ _ _ h
    · exact h
  · intro hnone
    show DroneRLAgent.ensureState ag.q_table _ = _
    unfold DroneRLAgent.ensureState
    rw [if_pos hnone]
  · intro hsome
    show DroneRLAgent.ensureState ag.q_table _ = _
    unfold DroneRLAgent.ensureState
    rw [if_neg hsome]

/-- C10 witness: a fresh agent stepped once with `training = False` gains
exactly the all-zeros entry for its (previously unvisited) current state and
a step-count of 1. -/
theorem C10_step_no_training_frame_witness :
    ((mkDroneRLAgent 15 5 0.1 0.95 0.3 0.05 0.995).step [] [] [] 10 ((60, 60, 30) : P3)
        (50, 750, 50, 550) (10, 200) ⟨-60, -55, 100, 90⟩ 0 false 0.5 0
        (fun _ => 0) (fun _ => (0 : Fin 10))).1.q_table
      = (mkDroneRLAgent 15 5 0.1 0.95 0.3 0.05 0.995).q_table ++
          [((mkDroneRLAgent 15 5 0.1 0.95 0.3 0.05 0.995).discretize_position
              ((60, 60, 30) : P3) (50, 750, 50, 550) (10, 200), zeroActs)] ∧
    ((mkDroneRLAgent 15 5 0.1 0.95 0.3 0.05 0.995).step [] [] [] 10 ((60, 60, 30) : P3)
        (50, 750, 50, 550) (10, 200) ⟨-60, -55, 100, 90⟩ 0 false 0.5 0
        (fun _ => 0) (fun _ => (0 : Fin 10))).1.step_count
      = (mkDroneRLAgent 15 5 0.1 0.95 0.3 0.05 0.995).step_count + 1 := by
  have h := C10_step_no_training_frame (mkDroneRLAgent 15 5 0.1 0.95 0.3 0.05 0.995)
    [] [] [] 10 ((60, 60, 30) : P3) (50, 750, 50, 550) (10, 200) ⟨-60, -55, 100, 90⟩ 0
    0.5 0 (fun _ => 0) (fun _ => (0 : Fin 10)) _ _ rfl rfl
  exact ⟨h.2.2.2.2.1 rfl, h.2.2.1⟩


/-! ## C9 -/

/-- The list whose head is not a digit (or is empty) stops a digit run. -/
def noDigitHead : List ℕ → Prop
  | [] => True
  | c :: _ => isDigitCode c = false

/-- Unfolding equation for `takeDigits` on a cons cell. -/
lemma takeDigits_cons (c : ℕ) (rest : List ℕ) (acc : ℕ) :
    takeDigits (c :: rest) acc =
      if isDigitCode c then takeDigits rest (acc * 10 + (c - 48)) else (acc, c :: rest) := rfl

/-- Unfolding equation for `parseNat` on a cons cell. -/
lemma parseNat_cons (c : ℕ) (rest : List ℕ) :
    parseNat (c :: rest) =
      if isDigitCode c then some (takeDigits rest (c - 48)) else none := rfl

/-- Unfolding equation for `parseInteg` on a cons cell. -/
lemma parseInteg_cons (c : ℕ) (rest : List ℕ) :
    parseInteg (c :: rest) =
      if c = 45 then (parseNat rest).map fun p => (-(p.1 : ℤ), p.2)
      else (parseNat (c :: rest)).map fun p => ((p.1 : ℤ), p.2) := rfl

/-- Unfolding equation for `expectCode` on a cons cell. -/
lemma expectCode_cons (c d : ℕ) (rest : List ℕ) :
    expectCode c (d :: rest) = if d = c then some rest else none := rfl

/-- Digit-code characterisation. -/
lemma isDigitCode_true_iff (c : ℕ) : isDigitCode c = true ↔ 48 ≤ c ∧ c ≤ 57 := by
  simp [isDigitCode]

/-- The `natChars` of a small number. -/
lemma natChars_small (n : ℕ) (h : n < 10) : natChars n = [48 + n] := by
  rw [natChars]
  rw [if_pos h]

/-- The `natChars` of a large number. -/
lemma natChars_large (n : ℕ) (h : ¬ n < 10) :
    natChars n = natChars (n / 10) ++ [48 + n % 10] := by
  conv_lhs => rw [natChars]
  rw [if_neg h]

/-- The `takeDigits` stops immediately at a non-digit head. -/
lemma takeDigits_stop (rest : List ℕ) (acc : ℕ) (h : noDigitHead rest) :
    takeDigits rest acc = (acc, rest) := by
  cases rest with
  | nil => rfl
  | cons c cs =>
    rw [takeDigits_cons, if_neg]
    rw [show isDigitCode c = false from h]
    simp

/-- The `natChars` always starts with a digit character. -/
lemma natChars_head_digit (n : ℕ) :
    ∃ c cs, natChars n = c :: cs ∧ isDigitCode c = true := by
  induction n using Nat.strong_induction_on with
  | _ n ih =>
    by_cases h10 : n < 10
    · refine ⟨48 + n, [], natChars_small n h10, (isDigitCode_true_iff _).mpr ⟨by omega, by omega⟩⟩
    · obtain ⟨c, cs, hc, hd⟩ := ih (n / 10) (Nat.div_lt_self (by omega) (by omega))
      exact ⟨c, cs ++ [48 + n % 10], by rw [natChars_large n h10, hc]; rfl, hd⟩

/-- Consuming the digits of `natChars n` multiplies the accumulator by
`10 ^ length` and adds `n`. -/
lemma takeDigits_natChars (n : ℕ) (rest : List ℕ) (acc : ℕ) :
    takeDigits (natChars n ++ rest) acc =
      takeDigits rest (acc * 10 ^ (natChars n).length + n) := by
  induction n using Nat.strong_induction_on generalizing rest acc with
  | _ n ih =>
    by_cases h10 : n < 10
    · rw [natChars_small n h10, List.singleton_append, takeDigits_cons,
        if_pos ((isDigitCode_true_iff _).mpr ⟨by omega, by omega⟩),
        List.length_singleton, pow_one]
      congr 1
      omega
    · rw [natChars_large n h10, List.append_assoc,
        ih (n / 10) (Nat.div_lt_self (by omega) (by omega)), List.singleton_append,
        takeDigits_cons,
        if_pos ((isDigitCode_true_iff _).mpr ⟨by omega, by
          have := Nat.mod_lt n (show 0 < 10 by omega)
          omega⟩)]
      congr 1
      rw [List.length_append, List.length_singleton, pow_succ, ← mul_assoc]
      generalize acc * 10 ^ (natChars (n / 10)).length = A
      omega

/-- The `parseNat` recovers `n` from `natChars n` followed by a non-digit. -/
lemma parseNat_natChars (n : ℕ) (rest : List ℕ) (h : noDigitHead rest) :
    parseNat (natChars n ++ rest) = some (n, rest) := by
  obtain ⟨c, cs, hc, hd⟩ := natChars_head_digit n
  have key : takeDigits (natChars n ++ rest) 0 = (n, rest) := by
    rw [takeDigits_natChars, takeDigits_stop rest _ h, zero_mul, zero_add]
  rw [hc, List.cons_append, takeDigits_cons, if_pos hd,
    show 0 * 10 + (c - 48) = c - 48 from by omega] at key
  rw [hc, List.cons_append, parseNat_cons, if_pos hd, key]

/-- The `parseInteg` recovers `i` from `intChars i` followed by a non-digit. -/
lemma parseInteg_intChars (i : ℤ) (rest : List ℕ) (h : noDigitHead rest) :
    parseInteg (intChars i ++ rest) = some (i, rest) := by
  unfold intChars
  split
  · rename_i hneg
    rw [List.cons_append, parseInteg_cons, if_pos rfl, parseNat_natChars _ _ h]
    simp only [Option.map_some']
    rw [Int.ofNat_natAbs_of_nonpos (le_of_lt hneg), neg_neg]
  · rename_i hpos
    obtain ⟨c, cs, hc, hd⟩ := natChars_head_digit i.toNat
    have hne : ¬ c = 45 := by
      rw [isDigitCode_true_iff] at hd
      omega
    rw [hc, List.cons_append, parseInteg_cons, if_neg hne, ← List.cons_append, ← hc,
      parseNat_natChars _ _ h]
    simp only [Option.map_some']
    rw [Int.toNat_of_nonneg (not_lt.mp hpos)]

/-- The `int(str(k))` is the identity. -/
lemma parseIntAll_intChars (i : ℤ) : parseIntAll (intChars i) = some i := by
  unfold parseIntAll
  rw [show intChars i = intChars i ++ [] from by simp, parseInteg_intChars i [] trivial]

/-- A non-digit head, by evaluation. -/
lemma noDigitHead_cons (c : ℕ) (rest : List ℕ) (h : isDigitCode c = false) :
    noDigitHead (c :: rest) := h

/-- The `ast.literal_eval(str(state))` recovers the state tuple. -/
lemma parseState_stateKey (s : QState) : parseState (stateKey s) = some s := by
  obtain ⟨a, b, c⟩ := s
  have hskey : stateKey (a, b, c) =
      40 :: (intChars a ++ (44 :: 32 :: (intChars b ++ (44 :: 32 :: (intChars c ++ [41]))))) := by
    simp [stateKey]
  rw [hskey]
  unfold parseState
  rw [expectCode_cons, if_pos rfl, Option.some_bind]
  rw [parseInteg_intChars a _ (noDigitHead_cons 44 _ rfl), Option.some_bind]
  dsimp only
  rw [expectCode_cons, if_pos rfl, Option.some_bind]
  rw [expectCode_cons, if_pos rfl, Option.some_bind]
  rw [parseInteg_intChars b _ (noDigitHead_cons 44 _ rfl), Option.some_bind]
  dsimp only
  rw [expectCode_cons, if_pos rfl, Option.some_bind]
  rw [expectCode_cons, if_pos rfl, Option.some_bind]
  rw [parseInteg_intChars c _ (noDigitHead_cons 41 _ rfl), Option.some_bind]
  dsimp only
  rw [expectCode_cons, if_pos rfl]

/-- The canonical action-key list `0..9` of every action dict in the source
(dicts are always created as `{i: 0.0 for i in range(10)}` and only updated
in place). -/
def intKeys10 : List ℤ := (List.range 10).map fun n => (n : ℤ)

/-- Unfolding equation for `upsert` on a cons cell. -/
lemma upsert_cons {α β : Type} [DecidableEq α] (e : α × β) (rest : List (α × β))
    (k : α) (v : β) :
    upsert (e :: rest) k v = if e.1 = k then (k, v) :: rest else e :: upsert rest k v := rfl

/-- Updating a dict at an absent key appends the new binding. -/
lemma upsert_append_of_forall_ne {α β : Type} [DecidableEq α] (l : List (α × β))
    (k : α) (v : β) (h : ∀ e ∈ l, e.1 ≠ k) : upsert l k v = l ++ [(k, v)] := by
  induction l with
  | nil => rfl
  | cons e rest ih =>
    rw [upsert_cons, if_neg (h e (List.mem_cons_self e rest)),
      ih fun e2 he2 => h e2 (List.mem_cons_of_mem _ he2), List.cons_append]

/-- Folding `upsert` over bindings whose keys avoid the accumulator and are
mutually distinct just appends them in order. -/
lemma foldl_upsert_disjoint {α β : Type} [DecidableEq α] (tbl : List (α × β)) :
    ∀ acc : List (α × β), (tbl.map Prod.fst).Nodup →
      (∀ e ∈ tbl, ∀ e2 ∈ acc, e2.1 ≠ e.1) →
      tbl.foldl (fun t e => upsert t e.1 e.2) acc = acc ++ tbl := by
  induction tbl with
  | nil => intro acc _ _; simp
  | cons hd tl ih =>
    intro acc hnd hdisj
    have hnd2 : (hd.1 ∉ tl.map Prod.fst) ∧ (tl.map Prod.fst).Nodup := by simpa using hnd
    rw [List.foldl_cons,
      upsert_append_of_forall_ne acc hd.1 hd.2
        fun e2 he2 => hdisj hd (List.mem_cons_self _ _) e2 he2,
      ih (acc ++ [(hd.1, hd.2)]) hnd2.2 ?disj, List.append_assoc]
    · simp [Prod.mk.eta]
    case disj =>
      intro e he e2 he2
      rcases List.mem_append.mp he2 with h2 | h2
      · exact hdisj e (List.mem_cons_of_mem _ he) e2 h2
      · have : e2 = (hd.1, hd.2) := by simpa using h2
        subst this
        intro heq
        exact hnd2.1 (heq ▸ List.mem_map_of_mem Prod.fst he)

/-- Folding `upsert` over bindings that all miss the accumulator's head key
preserves that head. -/
lemma foldl_upsert_cons_ne {α β : Type} [DecidableEq α] (l : List (α × β)) :
    ∀ (k : α) (v : β) (zt : List (α × β)), (∀ e ∈ l, e.1 ≠ k) →
      l.foldl (fun ad e => upsert ad e.1 e.2) ((k, v) :: zt) =
        (k, v) :: l.foldl (fun ad e => upsert ad e.1 e.2) zt := by
  induction l with
  | nil => intros; rfl
  | cons hd tl ih =>
    intro k v zt hne
    rw [List.foldl_cons, upsert_cons]
    dsimp only
    rw [if_neg fun heq => hne hd (List.mem_cons_self _ _) heq.symm, List.foldl_cons,
      ih k v _ fun e he => hne e (List.mem_cons_of_mem _ he)]

/-- Folding dict assignment over bindings whose key sequence equals that of
the start dict rebuilds exactly the binding list. -/
lemma foldl_upsert_same_keys {α β : Type} [DecidableEq α] (l : List (α × β)) :
    ∀ z : List (α × β), l.map Prod.fst = z.map Prod.fst → (l.map Prod.fst).Nodup →
      l.foldl (fun ad e => upsert ad e.1 e.2) z = l := by
  induction l with
  | nil =>
    intro z hz _
    have hz2 : List.map Prod.fst z = ([] : List α) := by simpa using hz.symm
    have hz3 : z = [] := List.map_eq_nil.mp hz2
    subst hz3
    rfl
  | cons hd tl ih =>
    intro z hz hnd
    cases z with
    | nil => simp at hz
    | cons zh zt =>
      simp only [List.map_cons, List.cons.injEq] at hz
      obtain ⟨hk, hrest⟩ := hz
      have hnd2 : (hd.1 ∉ tl.map Prod.fst) ∧ (tl.map Prod.fst).Nodup := by simpa using hnd
      have hnotin : ∀ e ∈ tl, e.1 ≠ hd.1 := by
        intro e he heq
        exact hnd2.1 (heq ▸ List.mem_map_of_mem Prod.fst he)
      rw [List.foldl_cons, upsert_cons, if_pos hk.symm,
        foldl_upsert_cons_ne tl hd.1 hd.2 zt hnotin, ih zt hrest hnd2.2]

/-- The zero dict has exactly the canonical keys. -/
lemma zeroActs_keys : zeroActs.map Prod.fst = intKeys10 := rfl

/-- The canonical key list has no duplicates. -/
lemma intKeys10_nodup : intKeys10.Nodup := by decide

/-- Rebuilding an action dict from its serialised form recovers it exactly,
provided its keys are the canonical `0..9` sequence. -/
lemma buildActionDict_roundtrip (acts : ActMap) (h : acts.map Prod.fst = intKeys10) :
    DroneRLAgent.buildActionDict (acts.map fun kv => (intChars kv.1, kv.2)) = acts := by
  unfold DroneRLAgent.buildActionDict
  rw [List.foldl_map]
  have hext : List.foldl
      (fun (ad : ActMap) kv =>
        match parseIntAll (intChars kv.1) with
        | some k => upsert ad k kv.2
        | none => ad) zeroActs acts =
      List.foldl (fun (ad : ActMap) kv => upsert ad kv.1 kv.2) zeroActs acts :=
    List.foldl_ext _ _ zeroActs fun ad kv _ => by rw [parseIntAll_intChars]
  rw [hext]
  refine foldl_upsert_same_keys acts zeroActs ?_ ?_
  · rw [h, zeroActs_keys]
  · rw [h]
    exact intKeys10_nodup

/-- C9: saving and then loading a policy reproduces an identical
state-to-action-values mapping for every state present in the Q-table at save
time — in fact the rebuilt table is identical.  (Stated under the table
invariants the source maintains: distinct state keys, and every action dict
created as `{i: 0.0 for i in range(10)}` — i.e. keys exactly `0..9`.) -/
theorem C9_policy_roundtrip (ag : DroneRLAgent)
    (hnodup : (ag.q_table.map Prod.fst).Nodup)
    (hwf : ∀ e ∈ ag.q_table, e.2.map Prod.fst = intKeys10) :
    (ag.load_policy ag.save_policy).q_table = ag.q_table ∧
    ∀ s acts, lookupA ag.q_table s = some acts →
      lookupA (ag.load_policy ag.save_policy).q_table s = some acts := by
  have htbl : (ag.load_policy ag.save_policy).q_table = ag.q_table := by
    show List.foldl _ [] (List.map _ ag.q_table) = ag.q_table
    rw [List.foldl_map]
    have hext := List.foldl_ext
      (fun (t : QTable) (e : QState × ActMap) =>
        match parseState (stateKey e.1) with
        | some st => upsert t st (DroneRLAgent.buildActionDict
            (e.2.map fun kv => (intChars kv.1, kv.2)))
        | none => t)
      (fun (t : QTable) (e : QState × ActMap) => upsert t e.1 e.2)
      ([] : QTable) (l := ag.q_table)
      (fun t e he => by
        dsimp only
        rw [parseState_stateKey]
        dsimp only
        rw [buildActionDict_roundtrip e.2 (hwf e he)])
    rw [hext]
    simpa using foldl_upsert_disjoint ag.q_table [] hnodup (by simp)
  exact ⟨htbl, fun s acts hs => htbl ▸ hs⟩

/-- C9 witness: a one-state agent (state `(1, 2, 3)`, canonical ten-key
action dict) survives the save / load round trip unchanged. -/
theorem C9_policy_roundtrip_witness :
    (DroneRLAgent.load_policy
        { mkDroneRLAgent 15 5 0.1 0.95 0.3 0.05 0.995 with
            q_table := [(((1 : ℤ), (2 : ℤ), (3 : ℤ)), zeroActs)] }
        (DroneRLAgent.save_policy
          { mkDroneRLAgent 15 5 0.1 0.95 0.3 0.05 0.995 with
              q_table := [(((1 : ℤ), (2 : ℤ), (3 : ℤ)), zeroActs)] })).q_table
      = [(((1 : ℤ), (2 : ℤ), (3 : ℤ)), zeroActs)] := by
  have h := C9_policy_roundtrip
    { mkDroneRLAgent 15 5 0.1 0.95 0.3 0.05 0.995 with
        q_table := [(((1 : ℤ), (2 : ℤ), (3 : ℤ)), zeroActs)] }
    (by simp)
    (by
      intro e he
      simp only [List.mem_singleton] at he
      subst he
      exact zeroActs_keys)
  exact h.1
